import Mathlib

/-!
ANSI colour escapes of `classdumpctl` (`Sources/classdumpctl/ansi-color.h`)

The header consists of object-like and function-like preprocessor macros whose
replacement lists are adjacent string literals.  Adjacent string literals are
concatenated by the C translator, so a macro whose parameters are string
literals is embedded as a function on `String`, with adjacency rendered as
`++`.  The octal escape `\033` is the character `0x1B`, written `\x1b` here.
-/

namespace AnsiColor

/-! ## The macros of the header -/

/-- Macro `#define ANSI_GRAPHIC_RENDITION(e) "\033[" e "m"` -/
def ANSI_GRAPHIC_RENDITION (e : String) : String := "\x1b[" ++ e ++ "m"

/-- Macro `#define ANSI_GRAPHIC_RESET_CODE "0"` -/
def ANSI_GRAPHIC_RESET_CODE : String := "0"

/-- Macro `#define ANSI_GRAPHIC_COLOR(t, m, c) ANSI_GRAPHIC_RENDITION(t ";" m c)` -/
def ANSI_GRAPHIC_COLOR (t m c : String) : String :=
  ANSI_GRAPHIC_RENDITION (t ++ ";" ++ m ++ c)

def ANSI_GRAPHIC_COLOR_TYPE_REGULAR : String := "0"
def ANSI_GRAPHIC_COLOR_TYPE_BOLD : String := "1"
def ANSI_GRAPHIC_COLOR_TYPE_FAINT : String := "2"
def ANSI_GRAPHIC_COLOR_TYPE_ITALIC : String := "3"
def ANSI_GRAPHIC_COLOR_TYPE_UNDERLINE : String := "4"

def ANSI_GRAPHIC_COLOR_ATTRIBUTE_FOREGROUND_NORMAL : String := "3"
def ANSI_GRAPHIC_COLOR_ATTRIBUTE_BACKGROUND_NORMAL : String := "4"
def ANSI_GRAPHIC_COLOR_ATTRIBUTE_FOREGROUND_BRIGHT : String := "9"
def ANSI_GRAPHIC_COLOR_ATTRIBUTE_BACKGROUND_BRIGHT : String := "10"

def ANSI_GRAPHIC_COLOR_CODE_BLACK : String := "0"
def ANSI_GRAPHIC_COLOR_CODE_RED : String := "1"
def ANSI_GRAPHIC_COLOR_CODE_GREEN : String := "2"
def ANSI_GRAPHIC_COLOR_CODE_YELLOW : String := "3"
def ANSI_GRAPHIC_COLOR_CODE_BLUE : String := "4"
def ANSI_GRAPHIC_COLOR_CODE_PURPLE : String := "5"
def ANSI_GRAPHIC_COLOR_CODE_CYAN : String := "6"
def ANSI_GRAPHIC_COLOR_CODE_WHITE : String := "7"

/-! ## The three groups of constants, indexed by name

Each enumeration names the macros of one group (`ANSI_GRAPHIC_COLOR_TYPE_*`,
`ANSI_GRAPHIC_COLOR_ATTRIBUTE_*`, `ANSI_GRAPHIC_COLOR_CODE_*`); `code` sends a
name to the replacement text of its macro. -/

/-- Names of the `ANSI_GRAPHIC_COLOR_TYPE_*` macros. -/
inductive Style where
  | regular | bold | faint | italic | underline
  deriving DecidableEq, Repr, Fintype

/-- Names of the `ANSI_GRAPHIC_COLOR_ATTRIBUTE_*` macros. -/
inductive Placement where
  | foregroundNormal | backgroundNormal | foregroundBright | backgroundBright
  deriving DecidableEq, Repr, Fintype

/-- Names of the `ANSI_GRAPHIC_COLOR_CODE_*` macros. -/
inductive Hue where
  | black | red | green | yellow | blue | purple | cyan | white
  deriving DecidableEq, Repr, Fintype

/-- Replacement text of the `ANSI_GRAPHIC_COLOR_TYPE_*` macro of a style. -/
def Style.code : Style → String
  | .regular => ANSI_GRAPHIC_COLOR_TYPE_REGULAR
  | .bold => ANSI_GRAPHIC_COLOR_TYPE_BOLD
  | .faint => ANSI_GRAPHIC_COLOR_TYPE_FAINT
  | .italic => ANSI_GRAPHIC_COLOR_TYPE_ITALIC
  | .underline => ANSI_GRAPHIC_COLOR_TYPE_UNDERLINE

/-- Replacement text of the `ANSI_GRAPHIC_COLOR_ATTRIBUTE_*` macro of a placement. -/
def Placement.code : Placement → String
  | .foregroundNormal => ANSI_GRAPHIC_COLOR_ATTRIBUTE_FOREGROUND_NORMAL
  | .backgroundNormal => ANSI_GRAPHIC_COLOR_ATTRIBUTE_BACKGROUND_NORMAL
  | .foregroundBright => ANSI_GRAPHIC_COLOR_ATTRIBUTE_FOREGROUND_BRIGHT
  | .backgroundBright => ANSI_GRAPHIC_COLOR_ATTRIBUTE_BACKGROUND_BRIGHT

/-- Replacement text of the `ANSI_GRAPHIC_COLOR_CODE_*` macro of a hue. -/
def Hue.code : Hue → String
  | .black => ANSI_GRAPHIC_COLOR_CODE_BLACK
  | .red => ANSI_GRAPHIC_COLOR_CODE_RED
  | .green => ANSI_GRAPHIC_COLOR_CODE_GREEN
  | .yellow => ANSI_GRAPHIC_COLOR_CODE_YELLOW
  | .blue => ANSI_GRAPHIC_COLOR_CODE_BLUE
  | .purple => ANSI_GRAPHIC_COLOR_CODE_PURPLE
  | .cyan => ANSI_GRAPHIC_COLOR_CODE_CYAN
  | .white => ANSI_GRAPHIC_COLOR_CODE_WHITE

/-- The styles in the order of the header. -/
def Style.all : List Style := [.regular, .bold, .faint, .italic, .underline]

/-- The placements in the order of the header. -/
def Placement.all : List Placement :=
  [.foregroundNormal, .backgroundNormal, .foregroundBright, .backgroundBright]

/-- The hues in the order of the header. -/
def Hue.all : List Hue :=
  [.black, .red, .green, .yellow, .blue, .purple, .cyan, .white]

/-- The coloured sequence of a request: the builder applied to the three macros. -/
def colored (s : Style) (p : Placement) (h : Hue) : String :=
  ANSI_GRAPHIC_COLOR s.code p.code h.code

/-- The reset sequence `ANSI_GRAPHIC_RENDITION(ANSI_GRAPHIC_RESET_CODE)`. -/
def reset : String := ANSI_GRAPHIC_RENDITION ANSI_GRAPHIC_RESET_CODE

/-! ## Vocabulary of the specification -/

/-- Style codes as the specification's table lists them. -/
def specStyleCodes : List String := ["0", "1", "2", "3", "4"]

/-- Placement codes as the specification's table lists them. -/
def specPlacementCodes : List String := ["3", "4", "9", "10"]

/-- Hue codes as the specification's table lists them. -/
def specHueCodes : List String := ["0", "1", "2", "3", "4", "5", "6", "7"]

/-- The well-formed coloured strings `ESC [ <style> ; <placement><hue> m` of the
specification, one for each choice of the three codes from its tables. -/
def wellFormedColored : List String :=
  specStyleCodes.flatMap fun s =>
    specPlacementCodes.flatMap fun p =>
      specHueCodes.map fun h => "\x1b[" ++ s ++ ";" ++ p ++ h ++ "m"

/-- Axis named by the specification's `InvalidCode` error. -/
inductive Axis where
  | style | placement | hue
  deriving DecidableEq, Repr

/-- The specification's error `InvalidCode { axis, value }`. -/
structure InvalidCode where
  axis : Axis
  value : String
  deriving DecidableEq, Repr

/-- The validating builder the specification words for open string parameters:
an out-of-domain value is rejected with `InvalidCode` naming its axis and the
value, otherwise the escape string is produced.  It follows the specification,
not the header, and is only compared with `ANSI_GRAPHIC_COLOR`. -/
def specValidatingBuilder (t m c : String) : Except InvalidCode String :=
  if t ∉ specStyleCodes then .error ⟨.style, t⟩
  else if m ∉ specPlacementCodes then .error ⟨.placement, m⟩
  else if c ∉ specHueCodes then .error ⟨.hue, c⟩
  else .ok ("\x1b[" ++ t ++ ";" ++ m ++ c ++ "m")

/-- Value of a decimal digit character, `none` for any other character. -/
def digitValue (c : Char) : Option Nat :=
  if '0' ≤ c ∧ c ≤ '9' then some (c.toNat - '0'.toNat) else none

/-- Reads a list of decimal digits, most significant first, on top of `acc`. -/
def decimalAux : List Char → Nat → Option Nat
  | [], acc => some acc
  | c :: cs, acc =>
    match digitValue c with
    | some d => decimalAux cs (10 * acc + d)
    | none => none

/-- The number a non-empty string of decimal digits denotes. -/
def decimalValue (s : String) : Option Nat :=
  match s.data with
  | [] => none
  | cs => decimalAux cs 0

/-- All coloured sequences the header's constants give, styles outermost and
hues innermost, each in the order of the header. -/
def allColored : List String :=
  Style.all.flatMap fun s =>
    Placement.all.flatMap fun p =>
      Hue.all.map fun h => colored s p h

/-! ## Reading a produced sequence

Observations on a produced string, used to state its textual shape and to
recover the request from it. -/

/-- Characters of a sequence between its first two characters (`ESC [`) and
its last character (`m`). -/
def body (x : String) : List Char := (x.data.drop 2).dropLast

/-- Part of a body before its first `;`. -/
def styleField (b : List Char) : List Char := b.takeWhile fun c => c != ';'

/-- Part of a body after its first `;`. -/
def colorField (b : List Char) : List Char := (b.dropWhile fun c => c != ';').drop 1

/-- Whether every character is a decimal digit. -/
def allDigits (cs : List Char) : Bool := cs.all fun c => (digitValue c).isSome

/-- The style whose macro has the given replacement text. -/
def Style.ofCode? (t : String) : Option Style := Style.all.find? fun s => s.code == t

/-- The placement whose macro has the given replacement text. -/
def Placement.ofCode? (m : String) : Option Placement :=
  Placement.all.find? fun p => p.code == m

/-- The hue whose macro has the given replacement text. -/
def Hue.ofCode? (c : String) : Option Hue := Hue.all.find? fun h => h.code == c

/-- Decoder of coloured sequences: the style is read before the `;`, the hue is
the last digit after it and the placement the digits in between; the result is
kept only if building it again gives the input. -/
def decode (x : String) : Option (Style × Placement × Hue) :=
  let cf := colorField (body x)
  match Style.ofCode? (String.mk (styleField (body x))),
      Placement.ofCode? (String.mk cf.dropLast),
      Hue.ofCode? (String.mk (cf.drop (cf.length - 1))) with
  | some s, some p, some h => if colored s p h = x then some (s, p, h) else none
  | _, _, _ => none

/-- The standard SGR colour range of a placement, as lowest and highest
parameter value: 30..37, 40..47, 90..97, 100..107. -/
def sgrRange : Placement → Nat × Nat
  | .foregroundNormal => (30, 37)
  | .backgroundNormal => (40, 47)
  | .foregroundBright => (90, 97)
  | .backgroundBright => (100, 107)

/-- Whether a number lies in the SGR colour range of a placement. -/
def inSgrRange (q : Placement) (n : Nat) : Prop := (sgrRange q).1 ≤ n ∧ n ≤ (sgrRange q).2

instance (q : Placement) (n : Nat) : Decidable (inSgrRange q n) := by
  unfold inSgrRange
  exact inferInstance

/-! ## Helper lemmas -/

theorem rendition_data (e : String) :
    (ANSI_GRAPHIC_RENDITION e).data = '\x1b' :: '[' :: (e.data ++ ['m']) := by
  simp [ANSI_GRAPHIC_RENDITION, String.data_append]

theorem color_data (t m c : String) :
    (ANSI_GRAPHIC_COLOR t m c).data
      = '\x1b' :: '[' :: (t.data ++ ';' :: (m.data ++ (c.data ++ ['m']))) := by
  simp [ANSI_GRAPHIC_COLOR, rendition_data, String.data_append]

theorem color_eq_concat (t m c : String) :
    ANSI_GRAPHIC_COLOR t m c = "\x1b[" ++ t ++ ";" ++ m ++ c ++ "m" := by
  simp [ANSI_GRAPHIC_COLOR, ANSI_GRAPHIC_RENDITION, String.append_assoc]

theorem allColored_eq_wellFormed : allColored = wellFormedColored := by
  rfl

theorem wellFormedColored_length : wellFormedColored.length = 160 := by
  rfl

theorem colored_mem_allColored (s : Style) (p : Placement) (h : Hue) :
    colored s p h ∈ allColored := by
  simp only [allColored, List.mem_flatMap, List.mem_map]
  exact ⟨s, by cases s <;> decide, p, by cases p <;> decide, h, by cases h <;> decide, rfl⟩

theorem decode_colored (s : Style) (p : Placement) (h : Hue) :
    decode (colored s p h) = some (s, p, h) := by
  cases s <;> cases p <;> cases h <;> rfl

theorem colored_injective (s1 s2 : Style) (p1 p2 : Placement) (h1 h2 : Hue)
    (heq : colored s1 p1 h1 = colored s2 p2 h2) : s1 = s2 ∧ p1 = p2 ∧ h1 = h2 := by
  have hd : decode (colored s1 p1 h1) = decode (colored s2 p2 h2) := congrArg decode heq
  rw [decode_colored, decode_colored] at hd
  simpa using hd

theorem allColored_eq_map :
    allColored
      = (Style.all ×ˢ (Placement.all ×ˢ Hue.all)).map fun r => colored r.1 r.2.1 r.2.2 := by
  rfl

theorem allColored_nodup : allColored.Nodup := by
  rw [allColored_eq_map]
  refine List.Nodup.map ?_ ?_
  · rintro ⟨s1, p1, h1⟩ ⟨s2, p2, h2⟩ heq
    obtain ⟨rfl, rfl, rfl⟩ := colored_injective s1 s2 p1 p2 h1 h2 heq
    rfl
  · exact List.Nodup.product (by decide) (List.Nodup.product (by decide) (by decide))

theorem decode_eq_some_iff (x : String) (r : Style × Placement × Hue) :
    decode x = some r ↔ x = colored r.1 r.2.1 r.2.2 := by
  constructor
  · intro hx
    simp only [decode] at hx
    split at hx
    · split at hx
      · rename_i hc
        cases hx
        exact hc.symm
      · cases hx
    · cases hx
  · rintro rfl
    exact decode_colored _ _ _

/-! ## Construction of the sequences -/

/-- C1: for every style, placement and hue (5 * 4 * 8 = 160 combinations),
`ANSI_GRAPHIC_COLOR` applied to the three constants is the concatenation of
`ESC [`, the style code, `;`, the placement code, the hue code and `m`, as a
string and character by character; the codes are the replacement texts of the
`ANSI_GRAPHIC_COLOR_TYPE_*`, `_ATTRIBUTE_*` and `_CODE_*` macros. -/
theorem color_is_concatenation_of_codes :
    (∀ (s : Style) (p : Placement) (h : Hue),
        ANSI_GRAPHIC_COLOR s.code p.code h.code
            = "\x1b[" ++ s.code ++ ";" ++ p.code ++ h.code ++ "m"
          ∧ (ANSI_GRAPHIC_COLOR s.code p.code h.code).data
            = ['\x1b', '['] ++ s.code.data ++ [';'] ++ p.code.data ++ h.code.data ++ ['m'])
      ∧ Fintype.card (Style × Placement × Hue) = 160
      ∧ allColored = wellFormedColored := by
  refine ⟨fun s p h => ⟨color_eq_concat _ _ _, ?_⟩, ?_, ?_⟩
  · simp [color_data]
  · rfl
  · exact allColored_eq_wellFormed

/-- C2: the reset sequence `ANSI_GRAPHIC_RENDITION(ANSI_GRAPHIC_RESET_CODE)` is
exactly the four characters ESC, `[`, `0`, `m`; it is a closed constant, so it
is this string after any list of previously built sequences. -/
theorem reset_is_esc_bracket_zero_m :
    ANSI_GRAPHIC_RENDITION ANSI_GRAPHIC_RESET_CODE = "\x1b[0m"
      ∧ (ANSI_GRAPHIC_RENDITION ANSI_GRAPHIC_RESET_CODE).data = ['\x1b', '[', '0', 'm']
      ∧ (ANSI_GRAPHIC_RENDITION ANSI_GRAPHIC_RESET_CODE).length = 4
      ∧ ∀ built : List (Style × Placement × Hue),
          ((built.map fun r => colored r.1 r.2.1 r.2.2)
              ++ [ANSI_GRAPHIC_RENDITION ANSI_GRAPHIC_RESET_CODE]).getLast?
            = some "\x1b[0m" := by
  refine ⟨by decide, by decide, by decide, fun built => ?_⟩
  rw [List.getLast?_concat]
  exact congrArg some (by decide)

/-- C3: the code table is as documented: styles regular, bold, faint, italic,
underline have codes 0, 1, 2, 3, 4; placements foreground-normal,
background-normal, foreground-bright, background-bright have codes 3, 4, 9,
10; hues black to white have codes 0 to 7; so the sets of codes are exactly
those of the table, and the name-to-code mapping of each axis is injective. -/
theorem code_table_as_documented :
    (ANSI_GRAPHIC_COLOR_TYPE_REGULAR = "0" ∧ ANSI_GRAPHIC_COLOR_TYPE_BOLD = "1"
        ∧ ANSI_GRAPHIC_COLOR_TYPE_FAINT = "2" ∧ ANSI_GRAPHIC_COLOR_TYPE_ITALIC = "3"
        ∧ ANSI_GRAPHIC_COLOR_TYPE_UNDERLINE = "4")
      ∧ (ANSI_GRAPHIC_COLOR_ATTRIBUTE_FOREGROUND_NORMAL = "3"
        ∧ ANSI_GRAPHIC_COLOR_ATTRIBUTE_BACKGROUND_NORMAL = "4"
        ∧ ANSI_GRAPHIC_COLOR_ATTRIBUTE_FOREGROUND_BRIGHT = "9"
        ∧ ANSI_GRAPHIC_COLOR_ATTRIBUTE_BACKGROUND_BRIGHT = "10")
      ∧ (ANSI_GRAPHIC_COLOR_CODE_BLACK = "0" ∧ ANSI_GRAPHIC_COLOR_CODE_RED = "1"
        ∧ ANSI_GRAPHIC_COLOR_CODE_GREEN = "2" ∧ ANSI_GRAPHIC_COLOR_CODE_YELLOW = "3"
        ∧ ANSI_GRAPHIC_COLOR_CODE_BLUE = "4" ∧ ANSI_GRAPHIC_COLOR_CODE_PURPLE = "5"
        ∧ ANSI_GRAPHIC_COLOR_CODE_CYAN = "6" ∧ ANSI_GRAPHIC_COLOR_CODE_WHITE = "7")
      ∧ (Style.all.map Style.code = specStyleCodes
        ∧ Placement.all.map Placement.code = specPlacementCodes
        ∧ Hue.all.map Hue.code = specHueCodes)
      ∧ (Style.all.map (fun s => decimalValue s.code) = [some 0, some 1, some 2, some 3, some 4]
        ∧ Placement.all.map (fun p => decimalValue p.code) = [some 3, some 4, some 9, some 10]
        ∧ Hue.all.map (fun h => decimalValue h.code)
            = [some 0, some 1, some 2, some 3, some 4, some 5, some 6, some 7])
      ∧ ((∀ x, (∃ s, Style.code s = x) ↔ x ∈ specStyleCodes)
        ∧ (∀ x, (∃ p, Placement.code p = x) ↔ x ∈ specPlacementCodes)
        ∧ (∀ x, (∃ h, Hue.code h = x) ↔ x ∈ specHueCodes))
      ∧ (Function.Injective Style.code ∧ Function.Injective Placement.code
        ∧ Function.Injective Hue.code) := by
  refine ⟨by decide, by decide, by decide, by decide, by decide, ⟨?_, ?_, ?_⟩, ?_, ?_, ?_⟩
  · intro x
    constructor
    · rintro ⟨s, rfl⟩
      cases s <;> decide
    · intro hx
      simp only [specStyleCodes, List.mem_cons, List.mem_singleton, List.not_mem_nil,
        or_false] at hx
      rcases hx with rfl | rfl | rfl | rfl | rfl
      exacts [⟨.regular, rfl⟩, ⟨.bold, rfl⟩, ⟨.faint, rfl⟩, ⟨.italic, rfl⟩, ⟨.underline, rfl⟩]
  · intro x
    constructor
    · rintro ⟨p, rfl⟩
      cases p <;> decide
    · intro hx
      simp only [specPlacementCodes, List.mem_cons, List.mem_singleton, List.not_mem_nil,
        or_false] at hx
      rcases hx with rfl | rfl | rfl | rfl
      exacts [⟨.foregroundNormal, rfl⟩, ⟨.backgroundNormal, rfl⟩, ⟨.foregroundBright, rfl⟩,
        ⟨.backgroundBright, rfl⟩]
  · intro x
    constructor
    · rintro ⟨h, rfl⟩
      cases h <;> decide
    · intro hx
      simp only [specHueCodes, List.mem_cons, List.mem_singleton, List.not_mem_nil,
        or_false] at hx
      rcases hx with rfl | rfl | rfl | rfl | rfl | rfl | rfl | rfl
      exacts [⟨.black, rfl⟩, ⟨.red, rfl⟩, ⟨.green, rfl⟩, ⟨.yellow, rfl⟩, ⟨.blue, rfl⟩,
        ⟨.purple, rfl⟩, ⟨.cyan, rfl⟩, ⟨.white, rfl⟩]
  · intro a b hab
    cases a <;> cases b <;> first | rfl | exact absurd hab (by decide)
  · intro a b hab
    cases a <;> cases b <;> first | rfl | exact absurd hab (by decide)
  · intro a b hab
    cases a <;> cases b <;> first | rfl | exact absurd hab (by decide)

/-- C4 (as stated, refuted): the builders take any string literals, so an
argument outside the tables passes through: style code `5` gives `ESC[5;31m`,
which is none of the 160 well-formed strings, and the empty encoding gives
`ESC[m`, which is neither one of them nor the reset string. -/
theorem unlisted_argument_passes_through :
    ANSI_GRAPHIC_COLOR "5" "3" "1" = "\x1b[5;31m"
      ∧ ANSI_GRAPHIC_COLOR "5" "3" "1" ∉ wellFormedColored
      ∧ ANSI_GRAPHIC_RENDITION "" = "\x1b[m"
      ∧ ANSI_GRAPHIC_RENDITION "" ∉ wellFormedColored
      ∧ ANSI_GRAPHIC_RENDITION "" ≠ "\x1b[0m" := by
  refine ⟨by decide, by decide, by decide, by decide, by decide⟩

/-- C4 (amended): applied to the header's named constants, `ANSI_GRAPHIC_COLOR`
yields one of the 160 well-formed strings, the 160 requests yield exactly the
160 well-formed strings, and `ANSI_GRAPHIC_RENDITION` applied to an encoding
`T;MC` of named constants or to the reset code yields one of them or
`ESC[0m`. -/
theorem named_constants_give_well_formed :
    (∀ (s : Style) (p : Placement) (h : Hue),
        ANSI_GRAPHIC_COLOR s.code p.code h.code ∈ wellFormedColored)
      ∧ allColored = wellFormedColored
      ∧ wellFormedColored.length = 160
      ∧ (∀ (s : Style) (p : Placement) (h : Hue),
        ANSI_GRAPHIC_RENDITION (s.code ++ ";" ++ p.code ++ h.code) ∈ wellFormedColored)
      ∧ ANSI_GRAPHIC_RENDITION ANSI_GRAPHIC_RESET_CODE = "\x1b[0m" := by
  have key : ∀ (s : Style) (p : Placement) (h : Hue),
      ANSI_GRAPHIC_COLOR s.code p.code h.code ∈ wellFormedColored := fun s p h =>
    allColored_eq_wellFormed ▸ colored_mem_allColored s p h
  exact ⟨key, allColored_eq_wellFormed, wellFormedColored_length, key, by decide⟩

/-- C5 (as stated, refuted): for the out-of-domain style `5` the validating
builder of the specification reports `InvalidCode` on the style axis, while
the macro produces the escape string `ESC[5;31m`. -/
theorem out_of_domain_style_not_rejected :
    "5" ∉ specStyleCodes
      ∧ specValidatingBuilder "5" "3" "1" = .error ⟨.style, "5"⟩
      ∧ ANSI_GRAPHIC_COLOR "5" "3" "1" = "\x1b[5;31m"
      ∧ specValidatingBuilder "5" "3" "1" ≠ .ok (ANSI_GRAPHIC_COLOR "5" "3" "1") := by
  refine ⟨by decide, rfl, by decide, ?_⟩
  intro h
  have h2 : specValidatingBuilder "5" "3" "1" = .error ⟨.style, "5"⟩ := rfl
  rw [h2] at h
  cases h

/-- C5 (amended): the macro validates nothing and never rejects: for all
strings it produces `ESC[` t `;` m c `m`; in-domain values are never rejected,
with or without validation, and whenever the validating builder of the
specification accepts, the macro has produced the same string. -/
theorem builder_produces_string_for_every_argument :
    (∀ t m c : String, ANSI_GRAPHIC_COLOR t m c = "\x1b[" ++ t ++ ";" ++ m ++ c ++ "m")
      ∧ (∀ (s : Style) (p : Placement) (h : Hue),
        specValidatingBuilder s.code p.code h.code
          = .ok (ANSI_GRAPHIC_COLOR s.code p.code h.code))
      ∧ (∀ t m c : String,
        specValidatingBuilder t m c = .ok (ANSI_GRAPHIC_COLOR t m c)
          ∨ ∃ e, specValidatingBuilder t m c = .error e) := by
  refine ⟨color_eq_concat, ?_, ?_⟩
  · intro s p h
    cases s <;> cases p <;> cases h <;> rfl
  · intro t m c
    unfold specValidatingBuilder
    by_cases ht : t ∉ specStyleCodes
    · exact Or.inr ⟨_, if_pos ht⟩
    · by_cases hm : m ∉ specPlacementCodes
      · exact Or.inr ⟨_, by rw [if_neg ht, if_pos hm]⟩
      · by_cases hc : c ∉ specHueCodes
        · exact Or.inr ⟨_, by rw [if_neg ht, if_neg hm, if_pos hc]⟩
        · exact Or.inl (by rw [if_neg ht, if_neg hm, if_neg hc, color_eq_concat])

/-- C6: for every encoding `e`, `ANSI_GRAPHIC_RENDITION(e)` is `ESC[`, then `e`,
then `m`, with nothing added or removed; for `e = "0;30"` it is `ESC[0;30m`,
the same string as `ANSI_GRAPHIC_COLOR(REGULAR, FOREGROUND_NORMAL, BLACK)`; and
`ANSI_GRAPHIC_COLOR(t, m, c)` is `ANSI_GRAPHIC_RENDITION` of `t ";" m c` for
all strings. -/
theorem rendition_wraps_encoding :
    (∀ e : String,
        ANSI_GRAPHIC_RENDITION e = "\x1b[" ++ e ++ "m"
          ∧ (ANSI_GRAPHIC_RENDITION e).data = '\x1b' :: '[' :: (e.data ++ ['m'])
          ∧ (ANSI_GRAPHIC_RENDITION e).length = e.length + 3)
      ∧ ANSI_GRAPHIC_RENDITION "0;30" = "\x1b[0;30m"
      ∧ ANSI_GRAPHIC_RENDITION "0;30"
          = ANSI_GRAPHIC_COLOR ANSI_GRAPHIC_COLOR_TYPE_REGULAR
              ANSI_GRAPHIC_COLOR_ATTRIBUTE_FOREGROUND_NORMAL ANSI_GRAPHIC_COLOR_CODE_BLACK
      ∧ ∀ t m c : String,
          ANSI_GRAPHIC_COLOR t m c = ANSI_GRAPHIC_RENDITION (t ++ ";" ++ m ++ c) := by
  refine ⟨fun e => ⟨rfl, rendition_data e, ?_⟩, by decide, by decide, fun _ _ _ => rfl⟩
  simp only [String.length, rendition_data, List.length_cons, List.length_append,
    List.length_nil]

/-- C7: boundary case with the two-digit placement code:
`ANSI_GRAPHIC_COLOR(regular, background-bright, yellow)` is exactly
`ESC[0;103m`. -/
theorem regular_background_bright_yellow :
    ANSI_GRAPHIC_COLOR ANSI_GRAPHIC_COLOR_TYPE_REGULAR
        ANSI_GRAPHIC_COLOR_ATTRIBUTE_BACKGROUND_BRIGHT ANSI_GRAPHIC_COLOR_CODE_YELLOW
      = "\x1b[0;103m"
      ∧ colored .regular .backgroundBright .yellow = "\x1b[0;103m" := by
  exact ⟨by decide, by decide⟩

/-- C8: boundary case with hue code 0:
`ANSI_GRAPHIC_COLOR(italic, foreground-normal, black)` is exactly `ESC[3;30m`. -/
theorem italic_foreground_normal_black :
    ANSI_GRAPHIC_COLOR ANSI_GRAPHIC_COLOR_TYPE_ITALIC
        ANSI_GRAPHIC_COLOR_ATTRIBUTE_FOREGROUND_NORMAL ANSI_GRAPHIC_COLOR_CODE_BLACK
      = "\x1b[3;30m"
      ∧ colored .italic .foregroundNormal .black = "\x1b[3;30m" := by
  exact ⟨by decide, by decide⟩

/-- C9: `ANSI_GRAPHIC_COLOR(bold, foreground-normal, red)` is exactly
`ESC[1;31m`. -/
theorem bold_foreground_normal_red :
    ANSI_GRAPHIC_COLOR ANSI_GRAPHIC_COLOR_TYPE_BOLD
        ANSI_GRAPHIC_COLOR_ATTRIBUTE_FOREGROUND_NORMAL ANSI_GRAPHIC_COLOR_CODE_RED
      = "\x1b[1;31m"
      ∧ colored .bold .foregroundNormal .red = "\x1b[1;31m" := by
  exact ⟨by decide, by decide⟩

/-- C10: each of the 160 coloured sequences and the reset sequence has the
escape character 0x1B as first character, `[` as second, `m` as last, holds no
newline, and holds 0x1B, `[` and `m` exactly once each. -/
theorem sequences_start_esc_bracket_end_m :
    (∀ (s : Style) (p : Placement) (h : Hue),
        (ANSI_GRAPHIC_COLOR s.code p.code h.code).data.head? = some (Char.ofNat 0x1B)
          ∧ (ANSI_GRAPHIC_COLOR s.code p.code h.code).data[1]? = some '['
          ∧ (ANSI_GRAPHIC_COLOR s.code p.code h.code).data.getLast? = some 'm'
          ∧ '\n' ∉ (ANSI_GRAPHIC_COLOR s.code p.code h.code).data
          ∧ (ANSI_GRAPHIC_COLOR s.code p.code h.code).data.count (Char.ofNat 0x1B) = 1
          ∧ (ANSI_GRAPHIC_COLOR s.code p.code h.code).data.count '[' = 1
          ∧ (ANSI_GRAPHIC_COLOR s.code p.code h.code).data.count 'm' = 1)
      ∧ ((ANSI_GRAPHIC_RENDITION ANSI_GRAPHIC_RESET_CODE).data.head? = some (Char.ofNat 0x1B)
          ∧ (ANSI_GRAPHIC_RENDITION ANSI_GRAPHIC_RESET_CODE).data[1]? = some '['
          ∧ (ANSI_GRAPHIC_RENDITION ANSI_GRAPHIC_RESET_CODE).data.getLast? = some 'm'
          ∧ '\n' ∉ (ANSI_GRAPHIC_RENDITION ANSI_GRAPHIC_RESET_CODE).data
          ∧ (ANSI_GRAPHIC_RENDITION ANSI_GRAPHIC_RESET_CODE).data.count (Char.ofNat 0x1B) = 1
          ∧ (ANSI_GRAPHIC_RENDITION ANSI_GRAPHIC_RESET_CODE).data.count '[' = 1
          ∧ (ANSI_GRAPHIC_RENDITION ANSI_GRAPHIC_RESET_CODE).data.count 'm' = 1) := by
  refine ⟨fun s p h => ?_, by decide⟩
  cases s <;> cases p <;> cases h <;> decide

/-! ## Shape, separation and decoding of the sequences -/

/-- C11: for every style, placement and hue, the body of the coloured sequence
between `ESC [` and the final `m` holds exactly one `;`; before it stands the
single decimal digit of the style code, after it 2 or 3 decimal digits, the
placement code immediately followed by the one-digit hue code, and nothing
else. The body of the reset sequence is the single character `0`, without
`;`. -/
theorem colored_body_has_two_fields (s : Style) (p : Placement) (h : Hue) :
    ((ANSI_GRAPHIC_COLOR s.code p.code h.code).data
          = (Char.ofNat 0x1B) :: '[' :: (body (ANSI_GRAPHIC_COLOR s.code p.code h.code) ++ ['m'])
        ∧ body (ANSI_GRAPHIC_COLOR s.code p.code h.code)
          = s.code.data ++ ';' :: (p.code.data ++ h.code.data)
        ∧ (body (ANSI_GRAPHIC_COLOR s.code p.code h.code)).count ';' = 1
        ∧ styleField (body (ANSI_GRAPHIC_COLOR s.code p.code h.code)) = s.code.data
        ∧ (styleField (body (ANSI_GRAPHIC_COLOR s.code p.code h.code))).length = 1
        ∧ allDigits (styleField (body (ANSI_GRAPHIC_COLOR s.code p.code h.code))) = true
        ∧ colorField (body (ANSI_GRAPHIC_COLOR s.code p.code h.code))
          = p.code.data ++ h.code.data
        ∧ ((colorField (body (ANSI_GRAPHIC_COLOR s.code p.code h.code))).length = 2
          ∨ (colorField (body (ANSI_GRAPHIC_COLOR s.code p.code h.code))).length = 3)
        ∧ allDigits (colorField (body (ANSI_GRAPHIC_COLOR s.code p.code h.code))) = true
        ∧ (p.code.data.length = 1 ∨ p.code.data.length = 2)
        ∧ h.code.data.length = 1)
      ∧ ((ANSI_GRAPHIC_RENDITION ANSI_GRAPHIC_RESET_CODE).data
          = (Char.ofNat 0x1B) :: '['
              :: (body (ANSI_GRAPHIC_RENDITION ANSI_GRAPHIC_RESET_CODE) ++ ['m'])
        ∧ body (ANSI_GRAPHIC_RENDITION ANSI_GRAPHIC_RESET_CODE) = ['0']
        ∧ (body (ANSI_GRAPHIC_RENDITION ANSI_GRAPHIC_RESET_CODE)).count ';' = 0) := by
  refine ⟨?_, by decide⟩
  cases s <;> cases p <;> cases h <;> decide

/-- C13: the reset sequence lies outside the coloured sequences: for every
style (regular, whose code is also `0`, included), placement and hue, the
coloured sequence differs from the reset sequence, the reset sequence is not a
prefix of it and it is not a prefix of the reset sequence; they agree on
`ESC [` and part at the fourth character at the latest, where the reset
sequence has `m` and the coloured one `;`. -/
theorem reset_is_no_colored_sequence (s : Style) (p : Placement) (h : Hue) :
    ANSI_GRAPHIC_COLOR s.code p.code h.code ≠ ANSI_GRAPHIC_RENDITION ANSI_GRAPHIC_RESET_CODE
      ∧ ¬ ((ANSI_GRAPHIC_RENDITION ANSI_GRAPHIC_RESET_CODE).data
          <+: (ANSI_GRAPHIC_COLOR s.code p.code h.code).data)
      ∧ ¬ ((ANSI_GRAPHIC_COLOR s.code p.code h.code).data
          <+: (ANSI_GRAPHIC_RENDITION ANSI_GRAPHIC_RESET_CODE).data)
      ∧ (ANSI_GRAPHIC_RENDITION ANSI_GRAPHIC_RESET_CODE).data[3]? = some 'm'
      ∧ (ANSI_GRAPHIC_COLOR s.code p.code h.code).data[3]? = some ';'
      ∧ ANSI_GRAPHIC_RENDITION ANSI_GRAPHIC_RESET_CODE ∉ allColored
      ∧ decode (ANSI_GRAPHIC_RENDITION ANSI_GRAPHIC_RESET_CODE) = none := by
  have h3 : (ANSI_GRAPHIC_RENDITION ANSI_GRAPHIC_RESET_CODE).data[3]? = some 'm' := by decide
  have c3 : (ANSI_GRAPHIC_COLOR s.code p.code h.code).data[3]? = some ';' := by
    cases s <;> cases p <;> cases h <;> decide
  have hd : decode (ANSI_GRAPHIC_RENDITION ANSI_GRAPHIC_RESET_CODE) = none := by rfl
  have hne : ANSI_GRAPHIC_COLOR s.code p.code h.code
      ≠ ANSI_GRAPHIC_RENDITION ANSI_GRAPHIC_RESET_CODE := by
    intro heq
    rw [heq, h3] at c3
    exact absurd c3 (by decide)
  refine ⟨hne, ?_, ?_, h3, c3, ?_, hd⟩
  · cases s <;> cases p <;> cases h <;> decide
  · cases s <;> cases p <;> cases h <;> decide
  · intro hmem
    rw [allColored_eq_map, List.mem_map] at hmem
    obtain ⟨r, -, hr⟩ := hmem
    have hr2 : decode (colored r.1 r.2.1 r.2.2) = none := by rw [hr]; exact hd
    rw [decode_colored] at hr2
    cases hr2

/-- C14: the encoding is injective on the closed domain although placement and
hue codes are joined without separator: equal coloured sequences come from
equal style, placement and hue; the 160 combinations give 160 pairwise
distinct strings; and `decode` recovers the request from the string, accepting
exactly the coloured sequences. -/
theorem color_encoding_injective (s1 s2 : Style) (p1 p2 : Placement) (h1 h2 : Hue)
    (heq : ANSI_GRAPHIC_COLOR s1.code p1.code h1.code
      = ANSI_GRAPHIC_COLOR s2.code p2.code h2.code) :
    (s1 = s2 ∧ p1 = p2 ∧ h1 = h2)
      ∧ allColored.Nodup
      ∧ allColored.length = 160
      ∧ (∀ (s : Style) (p : Placement) (h : Hue),
        decode (ANSI_GRAPHIC_COLOR s.code p.code h.code) = some (s, p, h))
      ∧ (∀ (x : String) (r : Style × Placement × Hue),
        decode x = some r ↔ x = ANSI_GRAPHIC_COLOR r.1.code r.2.1.code r.2.2.code) := by
  refine ⟨colored_injective s1 s2 p1 p2 h1 h2 heq, allColored_nodup, ?_, decode_colored,
    decode_eq_some_iff⟩
  rw [allColored_eq_wellFormed, wellFormedColored_length]

/-- Witness of C14 at regular, background-bright, yellow, whose placement
code has two digits: the hypothesis holds there, the three components agree,
and `ESC[0;103m` is decoded to that request. -/
theorem color_encoding_injective_at_bright_yellow :
    ANSI_GRAPHIC_COLOR Style.regular.code Placement.backgroundBright.code Hue.yellow.code
        = ANSI_GRAPHIC_COLOR Style.regular.code Placement.backgroundBright.code Hue.yellow.code
      ∧ (Style.regular = Style.regular
        ∧ Placement.backgroundBright = Placement.backgroundBright ∧ Hue.yellow = Hue.yellow)
      ∧ decode "\x1b[0;103m" = some (Style.regular, Placement.backgroundBright, Hue.yellow) :=
  ⟨rfl,
    (color_encoding_injective .regular .regular .backgroundBright .backgroundBright
      .yellow .yellow rfl).1,
    (color_encoding_injective .regular .regular .backgroundBright .backgroundBright
      .yellow .yellow rfl).2.2.2.1 .regular .backgroundBright .yellow⟩

/-- C15: for every placement and hue, the digits placement code ++ hue code
read as a decimal number are 10 * placement number + hue number, with
placement number in 3, 4, 9, 10 and hue number at most 7, so the number lies
in the SGR colour range of its placement (30..37, 40..47, 90..97, 100..107)
and in no other; the four ranges are pairwise disjoint; and the style field
read as a decimal number is at most 4 and in none of the ranges. -/
theorem color_parameter_in_one_sgr_range (p : Placement) (h : Hue) :
    (∃ pn hn : Nat,
        decimalValue p.code = some pn ∧ decimalValue h.code = some hn
          ∧ pn ∈ [3, 4, 9, 10] ∧ hn ≤ 7
          ∧ decimalValue (p.code ++ h.code) = some (10 * pn + hn)
          ∧ (∀ s : Style,
            decimalValue (String.mk (colorField (body (ANSI_GRAPHIC_COLOR s.code p.code h.code))))
              = some (10 * pn + hn))
          ∧ inSgrRange p (10 * pn + hn)
          ∧ ∀ q : Placement, inSgrRange q (10 * pn + hn) ↔ q = p)
      ∧ (sgrRange .foregroundNormal = (30, 37) ∧ sgrRange .backgroundNormal = (40, 47)
        ∧ sgrRange .foregroundBright = (90, 97) ∧ sgrRange .backgroundBright = (100, 107))
      ∧ (∀ q1 q2 : Placement,
        q1 = q2 ∨ (sgrRange q1).2 < (sgrRange q2).1 ∨ (sgrRange q2).2 < (sgrRange q1).1)
      ∧ (∀ (q1 q2 : Placement) (n : Nat), inSgrRange q1 n ∧ inSgrRange q2 n → q1 = q2)
      ∧ ∀ s : Style,
          ∃ v : Nat,
            decimalValue s.code = some v
              ∧ decimalValue (String.mk (styleField (body (ANSI_GRAPHIC_COLOR s.code p.code h.code))))
                = some v
              ∧ v ≤ 4 ∧ ∀ q : Placement, ¬ inSgrRange q v := by
  refine ⟨?_, ⟨rfl, rfl, rfl, rfl⟩, by decide, ?_, ?_⟩
  · cases p <;> cases h <;>
      exact ⟨_, _, rfl, rfl, by decide, by decide, by decide,
        fun s => by cases s <;> decide, by decide, by decide⟩
  · intro q1 q2 n hn
    unfold inSgrRange at hn
    cases q1 <;> cases q2 <;> first | rfl | (simp only [sgrRange] at hn; omega)
  · intro s
    cases s <;> cases p <;> cases h <;>
      exact ⟨_, rfl, by decide, by decide, by decide⟩

end AnsiColor
